import Mathlib

/-!
Verification of the data-reshaping/classification pipeline of the
medical-dashboard application (src/app.py).  DataFrames are shallowly
embedded as a column-name list plus rows of cells; numeric values are
rationals.  Each fragment of the pipeline that a claim refers to is
translated as an executable definition and the claims are settled as
theorems below.
-/

namespace MedDash

/-- One cell of a pandas DataFrame: a numeric value, a string, or a
missing value (NaN/None).  Numeric values are modelled as rationals. -/
inductive Cell where
  | num (q : ℚ)
  | str (s : String)
  | null
deriving DecidableEq

/-- A DataFrame: a list of column names and rows of cells positionally
aligned with the columns. -/
structure Df where
  cols : List String
  rows : List (List Cell)
deriving DecidableEq

/-- Rows have exactly one cell per column. -/
def Df.Aligned (df : Df) : Prop := ∀ r ∈ df.rows, r.length = df.cols.length

instance decidableAligned (df : Df) : Decidable df.Aligned :=
  inferInstanceAs (Decidable (∀ r ∈ df.rows, r.length = df.cols.length))

instance instDecEqExcept {ε α : Type} [DecidableEq ε] [DecidableEq α] :
    DecidableEq (Except ε α) := fun a b =>
  match a, b with
  | .error e₁, .error e₂ =>
    if h : e₁ = e₂ then .isTrue (h ▸ rfl) else .isFalse (fun hh => h (Except.error.inj hh))
  | .ok x, .ok y =>
    if h : x = y then .isTrue (h ▸ rfl) else .isFalse (fun hh => h (Except.ok.inj hh))
  | .error _, .ok _ => .isFalse (fun hh => Except.noConfusion hh)
  | .ok _, .error _ => .isFalse (fun hh => Except.noConfusion hh)

/-- The cell of a row under the column named `c` (first occurrence),
`null` when the column is absent or the row is exhausted. -/
def cellAt : List String → List Cell → String → Cell
  | _, [], _ => .null
  | [], _, _ => .null
  | c' :: cs, x :: xs, c => if c' = c then x else cellAt cs xs c

/-- Replace the cell under the first occurrence of column `c`. -/
def setAt : List String → List Cell → String → Cell → List Cell
  | _, [], _, _ => []
  | [], r, _, _ => r
  | c' :: cs, x :: xs, c, v => if c' = c then v :: xs else x :: setAt cs xs c v

/-- Column assignment `df[c] = f(row)`: replace column `c` when present,
append it otherwise (pandas column-assignment semantics). -/
def withColumn (df : Df) (c : String) (f : List String → List Cell → Cell) : Df :=
  if df.cols.contains c then
    ⟨df.cols, df.rows.map (fun r => setAt df.cols r c (f df.cols r))⟩
  else
    ⟨df.cols ++ [c], df.rows.map (fun r => r ++ [f df.cols r])⟩

/-- Mask marking, for each position of a column list, whether its name has
not occurred before (`df.columns.duplicated()` keeps the first occurrence). -/
def dupMask : List String → List String → List Bool
  | [], _ => []
  | c :: cs, seen =>
    (!seen.contains c) :: dupMask cs (cond (seen.contains c) seen (c :: seen))

/-- Keep the entries of a list selected by a Boolean mask. -/
def maskFilter : List Bool → List α → List α
  | true :: bs, x :: xs => x :: maskFilter bs xs
  | false :: bs, _ :: xs => maskFilter bs xs
  | _, _ => []

/-- Drop duplicate column names, keeping the first occurrence of each
(the loc/columns.duplicated idiom of the source). -/
def dedupCols (df : Df) : Df :=
  let m := dupMask df.cols []
  ⟨maskFilter m df.cols, df.rows.map (fun r => maskFilter m r)⟩

/-- The required columns of `target` that are absent from `present`
(load_data lines 986-987). -/
def missingFrom (target present : List String) : List String :=
  target.filter (fun c => !present.contains c)

/-- How a load cycle halts.  A bare KeyError from accessing an absent
column (line 964) carries only that column's name — the module-level
handler at lines 1087-1094 shows just the exception text.  The schema
mismatch of lines 986-999 is reported with the full list of missing
columns and the actually-present columns before the subsetting KeyError
halts the cycle. -/
inductive LoadError where
  | keyError (c : String)
  | schemaMismatch (missing present : List String)
deriving DecidableEq

/-- Column subsetting and reordering, df[target].  When a requested column
is absent the subsetting raises and halts the cycle; the operator was
already shown the missing and the available columns (load_data lines
986-999), so the error value carries exactly that pair. -/
def selectCols (df : Df) (target : List String) : Except LoadError Df :=
  if missingFrom target df.cols = [] then
    .ok ⟨target, df.rows.map (fun r => target.map (fun c => cellAt df.cols r c))⟩
  else
    .error (.schemaMismatch (missingFrom target df.cols) df.cols)

/-- Rename every occurrence of the column old to new, as df.rename does. -/
def renameCol (df : Df) (old new : String) : Df :=
  ⟨df.cols.map (fun c => if c = old then new else c), df.rows⟩

/-- Lines 1014-1019 of load_data: create each column of `target` that the
frame lacks, filled with nulls. -/
def addMissingNull (df : Df) : List String → Df
  | [] => df
  | c :: cs =>
    if df.cols.contains c then addMissingNull df cs
    else addMissingNull ⟨df.cols ++ [c], df.rows.map (fun r => r ++ [Cell.null])⟩ cs

/-- Concatenation with a fresh index, pd.concat, for frames sharing one
column set (the pipeline equalises the column sets first). -/
def concatSame (a b : Df) : Df := ⟨a.cols, a.rows ++ b.rows⟩

/-- src/app.py, `assign_flag` (lines 955-961): the readiness classifier. -/
def assign_flag (score : ℚ) : String :=
  if score ≥ 66 then "Green"
  else if score ≥ 62 then "Yellow"
  else "Red"

/-- One-cell semantics of Series.apply of assign_flag.  A NaN score compares False
against both thresholds in Python, so `apply` yields "Red" for it; the
score columns produced by the CSV reader contain only numbers and NaN. -/
def assignFlagCell : Cell → Cell
  | .num q => .str (assign_flag q)
  | _ => .str "Red"

/-- load_data lines 948-953: tag the source frame with its exam type and
drop duplicate column names keeping the first occurrence. -/
def tagStage (df : Df) (tag : String) : Df :=
  dedupCols (withColumn df "exam_type" (fun _ _ => .str tag))

/-- load_data lines 948-965: tag and dedup, then assign the readiness flag
from the frame's own canonical score column.  The column access at line
964 raises a bare KeyError when total_score is absent, halting the load
cycle before the schema report of lines 985-999 is ever reached. -/
def flagStage (df : Df) (tag : String) : Except LoadError Df :=
  if (tagStage df tag).cols.contains "total_score" then
    .ok (withColumn (tagStage df tag)
      "flag" (fun cols r => assignFlagCell (cellAt cols r "total_score")))
  else
    .error (.keyError "total_score")

/-- load_data lines 967-976: the required columns of the CBSE subset. -/
def cbseRequiredCols (cbse : Df) : List String :=
  let cols := ["student_id", "exam_type", "exam_date", "total_score", "flag",
    "step1_pass_prob"]
  let cols := cols ++ (if cbse.cols.contains "exam_round" then ["exam_round"] else [])
  cols ++ (if cbse.cols.contains "cbse_band" then ["cbse_band"] else [])

/-- load_data lines 977-983: the required columns of the CBSSA subset. -/
def cbssaRequiredCols (cbse cbssa : Df) : List String :=
  let cols := cbseRequiredCols cbse
  if cbssa.cols.contains "cbssa_band" then
    (if cbssa.cols.contains "cbse_band" then cols
     else cols.filter (fun c => !(c == "cbse_band"))) ++ ["cbssa_band"]
  else cols

/-- load_data line 1008. -/
def finalBaseCols : List String :=
  ["student_id", "exam_type", "exam_date", "total_score", "flag",
   "step1_pass_prob", "band"]

/-- load_data lines 1008-1012: the canonical column set of exam_records. -/
def finalColsFor (a b : Df) : List String :=
  finalBaseCols ++
    (if a.cols.contains "exam_round" || b.cols.contains "exam_round" then
      ["exam_round"] else [])

/-- load_data lines 1008-1031: bring both subsets to the canonical column
set (missing columns created as null), reorder, drop duplicate column
names, and concatenate. -/
def finalizeConcat (a b : Df) : Except LoadError Df :=
  match selectCols (addMissingNull a (finalColsFor a b)) (finalColsFor a b) with
  | .error e => .error e
  | .ok a2 =>
    match selectCols (addMissingNull b (finalColsFor a b)) (finalColsFor a b) with
    | .error e => .error e
    | .ok b2 => .ok (concatSame (dedupCols a2) (dedupCols b2))

/-- load_data lines 948-1038: the exam-record normalisation pipeline, from
the renamed per-format frames to the concatenated exam_records table.  An
absent total_score halts at the flag assignment with a bare KeyError; any
other absent required column halts at the subsetting step after the
missing and the available columns were reported; in every case the load
cycle stops (module lines 1087-1094 catch the exception and stop the
view). -/
def examRecordsPipeline (cbse cbssa : Df) : Except LoadError Df :=
  match flagStage cbse "CBSE" with
  | .error e => .error e
  | .ok cbse1 =>
    match flagStage cbssa "CBSSA" with
    | .error e => .error e
    | .ok cbssa1 =>
      match selectCols cbse1 (cbseRequiredCols cbse1) with
      | .error e => .error e
      | .ok cbseSub =>
        match selectCols cbssa1 (cbssaRequiredCols cbse1 cbssa1) with
        | .error e => .error e
        | .ok cbssaSub =>
          finalizeConcat (renameCol cbseSub "cbse_band" "band")
            (renameCol cbssaSub "cbssa_band" "band")

/-- load_data lines 1041-1045: identifier columns of the EPC reshaping. -/
def epcStaticCols (cbseCols cbssaCols : List String) : List String :=
  ["student_id", "exam_type", "exam_date"] ++
    (if cbseCols.contains "exam_round" || cbssaCols.contains "exam_round" then
      ["exam_round"] else [])

/-- load_data lines 1047-1052: metadata and derived columns that are never
content areas. -/
def epcExcludeCols (cbseCols cbssaCols : List String) : List String :=
  epcStaticCols cbseCols cbssaCols ++
    ["total_score", "flag", "cohort_year", "step1_pass_prob",
     "step1_ready", "in_low_pass_range", "cbse_band", "cbssa_band", "band",
     "exam_order", "month", "year_offset", "exam_year",
     "first_name", "last_name", "full_name"]

/-- load_data lines 1054-1057:
`sorted(set(epc_cols_cbse).intersection(epc_cols_cbssa))`. -/
def sharedEpcCols (cbseCols cbssaCols : List String) : List String :=
  let excl := epcExcludeCols cbseCols cbssaCols
  let a := cbseCols.filter (fun c => !excl.contains c)
  let b := cbssaCols.filter (fun c => !excl.contains c)
  ((a.inter b).dedup).insertionSort (· ≤ ·)

/-- The digits of a decimal string read as a natural number; `none` when a
non-digit occurs.  The empty list reads as 0 and callers reject it where
needed. -/
def digitsVal (cs : List Char) : Option ℕ :=
  cs.foldl
    (fun acc c =>
      match acc with
      | none => none
      | some n => if c.isDigit then some (10 * n + (c.toNat - '0'.toNat)) else none)
    (some 0)

/-- Strip leading and trailing whitespace. -/
def stripWs (cs : List Char) : List Char :=
  ((cs.dropWhile Char.isWhitespace).reverse.dropWhile Char.isWhitespace).reverse

/-- The fragment of `pd.to_numeric` string parsing the pipeline relies on:
an optional sign followed by a plain decimal literal, surrounding
whitespace allowed; anything else coerces to NaN. -/
def parseRat (s : String) : Option ℚ :=
  let cs := stripWs s.data
  let sgn : Bool := match cs with
    | '-' :: _ => true
    | _ => false
  let cs := match cs with
    | '-' :: t => t
    | '+' :: t => t
    | t => t
  let ip := cs.takeWhile (fun c => c != '.')
  let rest := cs.dropWhile (fun c => c != '.')
  match rest with
  | [] =>
    if ip.isEmpty then none
    else
      match digitsVal ip with
      | some n => some (if sgn then -(n : ℚ) else (n : ℚ))
      | none => none
  | _ :: fp =>
    if fp.any (fun c => c == '.') then none
    else if ip.isEmpty && fp.isEmpty then none
    else
      match digitsVal ip, digitsVal fp with
      | some n, some m =>
          let q : ℚ := (n : ℚ) + (m : ℚ) / (10 : ℚ) ^ fp.length
          some (if sgn then -q else q)
      | _, _ => none

/-- One-cell semantics of pd.to_numeric with errors set to coerce. -/
def Cell.toNumeric : Cell → Cell
  | .num q => .num q
  | .null => .null
  | .str s =>
    match parseRat s with
    | some q => .num q
    | none => .null

/-- Per-cell transformation of a single column in place. -/
def mapCol (df : Df) (c : String) (f : Cell → Cell) : Df :=
  ⟨df.cols, df.rows.map (fun r => setAt df.cols r c (f (cellAt df.cols r c)))⟩

/-- Row filter dropping rows whose cell under c is missing (dropna). -/
def dropnaCol (df : Df) (c : String) : Df :=
  ⟨df.cols, df.rows.filter (fun r => cellAt df.cols r c != Cell.null)⟩

/-- One output row of `df.melt`: the identifier cells, the variable name
and the value cell. -/
def meltRow (cols idVars : List String) (v : String) (r : List Cell) : List Cell :=
  idVars.map (fun c => cellAt cols r c) ++ [Cell.str v, cellAt cols r v]

/-- Pandas melt with variable column EPC and value column Score: one
block of output rows per value column. -/
def meltEpc (df : Df) (idVars valueVars : List String) : Df :=
  ⟨idVars ++ ["EPC", "Score"],
   valueVars.flatMap (fun v => df.rows.map (fun r => meltRow df.cols idVars v r))⟩

/-- Identifier columns of the PDF renderer's EPC melt (line 330). -/
def pdfIdVars : List String := ["student_id", "exam_type", "exam_date"]

/-- The value columns of a melt with only `id_vars` given: every column
not an identifier, in order of appearance. -/
def pdfValueVars (df : Df) : List String :=
  df.cols.filter (fun c => !pdfIdVars.contains c)

/-- generate_student_pdf_report lines 330-332: melt the student's EPC
frame, coerce the score column to numbers, drop rows whose score is
missing after coercion. -/
def pdfEpcLong (df : Df) : Df :=
  dropnaCol (mapCol (meltEpc df pdfIdVars (pdfValueVars df)) "Score" Cell.toNumeric) "Score"

/-- Individual Student Dashboard lines 1689-1691: identifier columns. -/
def dashIdVars (df : Df) : List String :=
  ["student_id", "exam_type", "exam_date"] ++
    (if df.cols.contains "exam_round" then ["exam_round"] else [])

/-- Individual Student Dashboard lines 1694-1697: excluded metadata. -/
def dashExclude (df : Df) : List String :=
  dashIdVars df ++
    ["total_score", "flag", "cohort_year", "step1_pass_prob",
     "step1_ready", "in_low_pass_range", "band", "exam_order",
     "month", "year_offset", "exam_year", "first_name", "last_name",
     "full_name", "exam_label"]

/-- Individual Student Dashboard line 1699: the content-area columns. -/
def dashContentCols (df : Df) : List String :=
  df.cols.filter (fun c => !(dashExclude df).contains c)

/-- Individual Student Dashboard lines 1705-1716: melt, coerce scores,
drop missing scores (the state before the positive-score filter). -/
def dashEpcBase (df : Df) : Df :=
  dropnaCol (mapCol (meltEpc df (dashIdVars df) (dashContentCols df)) "Score" Cell.toNumeric)
    "Score"

/-- Line 1717: keep only rows with a strictly positive Score; NaN
compares False and is dropped. -/
def posScoreFilter (df : Df) : Df :=
  ⟨df.cols,
   df.rows.filter (fun r =>
     match cellAt df.cols r "Score" with
     | Cell.num q => decide (0 < q)
     | _ => false)⟩

/-- Individual Student Dashboard lines 1705-1717 including the
positive-score filter. -/
def dashEpcLong (df : Df) : Df := posScoreFilter (dashEpcBase df)

/-- The three category labels of the question-level feedback annotator. -/
def qlfLabels : List String := ["Diagnosis", "Foundation", "Gen Principle"]

/-- Whether a label matches at the start of a description, case
sensitively, after leading whitespace. -/
def matchesLabel (l s : String) : Bool :=
  l.data.isPrefixOf (s.data.dropWhile Char.isWhitespace)

/-- load_data line 1082: the regex
`^\s*(Diagnosis|Foundation|Gen Principle)` — drop leading whitespace, then
try the three alternatives left to right, returning the captured label. -/
def extractCategory (s : String) : Option String :=
  if matchesLabel "Diagnosis" s then some "Diagnosis"
  else if matchesLabel "Foundation" s then some "Foundation"
  else if matchesLabel "Gen Principle" s then some "Gen Principle"
  else none

/-- One-cell semantics of the str.extract accessor: non-string cells and
unmatched strings yield NaN. -/
def extractCategoryCell : Cell → Cell
  | .str s =>
    match extractCategory s with
    | some l => .str l
    | none => .null
  | _ => .null

/-- load_data lines 1079-1083: tag the QLF frame, derive score_category
from the content_area description, drop duplicate column names. -/
def qlfStage (qlf : Df) : Df :=
  dedupCols (withColumn (withColumn qlf "exam_type" (fun _ _ => .str "CBSE"))
    "score_category" (fun cols r => extractCategoryCell (cellAt cols r "content_area")))

/-- generate_student_pdf_report line 374: the in-place numeric coercion of
the correct column — the state of the caller's student_qlf table after the
call. -/
def rendererQlfAfter (df : Df) : Df := mapCol df "correct" Cell.toNumeric

/-- generate_student_pdf_report lines 374-376: coerce correct, then keep
only rows with a numeric correct value and a non-null score_category. -/
def qlfClean (df : Df) : Df :=
  ⟨(rendererQlfAfter df).cols,
   (rendererQlfAfter df).rows.filter (fun r =>
     (cellAt (rendererQlfAfter df).cols r "correct" != Cell.null) &&
     (cellAt (rendererQlfAfter df).cols r "score_category" != Cell.null))⟩

/-- The numeric value of a cell, 0 for non-numeric cells. -/
def cellNum : Cell → ℚ
  | .num q => q
  | _ => 0

/-- Line 379: the per-category row count of the cleaned QLF frame. -/
def categoryCount (df : Df) (cat : String) : ℕ :=
  ((qlfClean df).rows.filter
    (fun r => cellAt (qlfClean df).cols r "score_category" == Cell.str cat)).length

/-- Line 379: the per-category sum of correct values. -/
def categorySum (df : Df) (cat : String) : ℚ :=
  (((qlfClean df).rows.filter
    (fun r => cellAt (qlfClean df).cols r "score_category" == Cell.str cat)).map
    (fun r => cellNum (cellAt (qlfClean df).cols r "correct"))).sum

/-- Line 380: `pct_correct = 100 * sum / count`. -/
def pctCorrect (df : Df) (cat : String) : ℚ :=
  100 * categorySum df cat / (categoryCount df cat : ℚ)

/-- One exam record as used by the performance summary (line 255-257):
only the exam date and the total score enter the trend computation. -/
structure Exam where
  exam_date : String
  total_score : ℚ
deriving DecidableEq

/-- Code-point lexicographic string comparison, the order pandas uses when
sorting the date strings. -/
def charListLe : List Char → List Char → Bool
  | [], _ => true
  | _ :: _, [] => false
  | a :: as, b :: bs =>
    if a < b then true else if b < a then false else charListLe as bs

/-- Sorting of the exam records by their exam_date string. -/
def sortByDate (l : List Exam) : List Exam :=
  l.insertionSort (fun a b => charListLe a.exam_date.data b.exam_date.data = true)

/-- generate_student_pdf_report line 257: Improving exactly when there is
more than one exam and the chronologically last total score strictly
exceeds the chronologically first; otherwise "Stable". -/
def score_trend (exams : List Exam) : String :=
  match (sortByDate exams).head?, (sortByDate exams).getLast? with
  | some f, some l =>
      if 1 < exams.length ∧ f.total_score < l.total_score then "Improving"
      else "Stable"
  | _, _ => "Stable"

/-- One row of reset_tokens.csv. -/
structure TokenRow where
  email : String
  token : String
  timestamp : ℚ
deriving DecidableEq

/-- save_reset_token lines 543-570 acting on the token table: drop the
rows of this email, append the new token stamped `now`, then keep only
rows whose timestamp is within the last hour. -/
def save_reset_token (rows : List TokenRow) (email token : String) (now : ℚ) :
    List TokenRow :=
  let rows := rows.filter (fun r => r.email != email)
  let rows := rows ++ [⟨email, token, now⟩]
  rows.filter (fun r => decide (now - 3600 < r.timestamp))

/-- The invariant of the exam-record normaliser: every row's flag cell is
the classifier applied to the row's own total_score cell. -/
def FlagInv (df : Df) : Prop :=
  ∀ r ∈ df.rows, cellAt df.cols r "flag" = assignFlagCell (cellAt df.cols r "total_score")

/-- Sample CBSE summary frame (post-rename state) used to evaluate the
pipeline on concrete data. -/
def wCbse : Df :=
  ⟨["student_id", "exam_date", "total_score", "step1_pass_prob"],
   [[.str "S1", .str "2024-01-10", .num 70, .num 1]]⟩

/-- Sample CBSSA summary frame. -/
def wCbssa : Df :=
  ⟨["student_id", "exam_date", "total_score", "step1_pass_prob"],
   [[.str "S2", .str "2024-06-01", .num 61, .num 1]]⟩

/-- The exam_records table the pipeline produces from the two samples. -/
def wExamOut : Df :=
  ⟨finalBaseCols,
   [[.str "S1", .str "CBSE", .str "2024-01-10", .num 70, .str "Green", .num 1, .null],
    [.str "S2", .str "CBSSA", .str "2024-06-01", .num 61, .str "Red", .num 1, .null]]⟩

/-- The first row of the sample exam_records table. -/
def wExamRow : List Cell :=
  [.str "S1", .str "CBSE", .str "2024-01-10", .num 70, .str "Green", .num 1, .null]

/-- A CBSE frame lacking the required total_score column. -/
def wBadCbse : Df :=
  ⟨["student_id", "exam_date", "step1_pass_prob"],
   [[.str "S1", .str "2024-01-10", .num 1]]⟩

/-- A CBSE frame with total_score but lacking student_id, so the flag
assignment succeeds and the schema check reports the mismatch. -/
def wSchemaCbse : Df :=
  ⟨["exam_date", "total_score", "step1_pass_prob"],
   [[.str "2024-01-10", .num 70, .num 1]]⟩

/-- The flag stage's output on wSchemaCbse. -/
def wSchemaCbse1 : Df :=
  ⟨["exam_date", "total_score", "step1_pass_prob", "exam_type", "flag"],
   [[.str "2024-01-10", .num 70, .num 1, .str "CBSE", .str "Green"]]⟩

/-- The flag stage's output on wCbssa. -/
def wCbssaFlagged : Df :=
  ⟨["student_id", "exam_date", "total_score", "step1_pass_prob", "exam_type", "flag"],
   [[.str "S2", .str "2024-06-01", .num 61, .num 1, .str "CBSSA", .str "Red"]]⟩

/-- A wide EPC frame holding a single content-area score of exactly 0. -/
def wEpc : Df :=
  ⟨["student_id", "exam_type", "exam_date", "Biochemistry"],
   [[.str "S1", .str "CBSE", .str "2024-01-10", .num 0]]⟩

/-- A student_qlf frame whose correct column holds a non-numeric string. -/
def wQlfMut : Df :=
  ⟨["student_id", "correct", "score_category"],
   [[.str "S1", .str "not a number", .str "Diagnosis"]]⟩

/-- Two exams with rising scores for the trend computation. -/
def wTrendExams : List Exam := [⟨"2024-01-10", 60⟩, ⟨"2024-06-01", 70⟩]

/-- A pre-existing fresh reset token of another user. -/
def wTokB : TokenRow := ⟨"b@x.com", "t2", 4000⟩

/-- A reset-token table with an old token of a@x.com and wTokB. -/
def wTokens : List TokenRow := [⟨"a@x.com", "t1", 100⟩, wTokB]

/-- Word side of the C9 witness: a frame with only student_id. -/
def wNarrowA : Df := ⟨["student_id"], [[.str "S1"]]⟩

/-- Second side of the C9 witness: a frame with only a band column. -/
def wNarrowB : Df := ⟨["band"], [[.null]]⟩

end MedDash

namespace MedDash

/-- Claim C1: for every numeric score the classifier returns Green iff the
score is at least 66, Yellow iff it is at least 62 and below 66, Red iff it
is below 62; the boundary cases 66, 62 and 61.999 land in Green, Yellow and
Red respectively, and every score receives exactly one of the three flags. -/
theorem claim_c1 :
    (∀ s : ℚ,
      (assign_flag s = "Green" ↔ 66 ≤ s) ∧
      (assign_flag s = "Yellow" ↔ 62 ≤ s ∧ s < 66) ∧
      (assign_flag s = "Red" ↔ s < 62)) ∧
    assign_flag 66 = "Green" ∧
    assign_flag 62 = "Yellow" ∧
    assign_flag (61999 / 1000) = "Red" ∧
    (∀ s : ℚ,
      assign_flag s = "Green" ∨ assign_flag s = "Yellow" ∨ assign_flag s = "Red") := by
  have hmain : ∀ s : ℚ,
      (assign_flag s = "Green" ↔ 66 ≤ s) ∧
      (assign_flag s = "Yellow" ↔ 62 ≤ s ∧ s < 66) ∧
      (assign_flag s = "Red" ↔ s < 62) := by
    intro s
    unfold assign_flag
    split_ifs with h1 h2
    · refine ⟨⟨fun _ => h1, fun _ => rfl⟩, ⟨fun h => absurd h (by decide), ?_⟩,
        ⟨fun h => absurd h (by decide), fun h => absurd h1 (by linarith)⟩⟩
      rintro ⟨-, hlt⟩; exact absurd h1 (by linarith)
    · refine ⟨⟨fun h => absurd h (by decide), fun h => absurd h1 (by linarith)⟩,
        ⟨fun _ => ⟨h2, by linarith [not_le.mp h1]⟩, fun _ => rfl⟩,
        ⟨fun h => absurd h (by decide), fun h => absurd h2 (by linarith)⟩⟩
    · refine ⟨⟨fun h => absurd h (by decide), fun h => absurd h1 (by linarith)⟩,
        ⟨fun h => absurd h (by decide), ?_⟩, ⟨fun _ => by linarith [not_le.mp h2], fun _ => rfl⟩⟩
      rintro ⟨hge, -⟩; exact absurd h2 (by linarith)
  refine ⟨hmain, ?_, ?_, ?_, ?_⟩
  · exact (hmain 66).1.mpr le_rfl
  · exact (hmain 62).2.1.mpr ⟨le_rfl, by norm_num⟩
  · exact (hmain (61999 / 1000)).2.2.mpr (by norm_num)
  · intro s
    unfold assign_flag
    split_ifs <;> simp

/-- Witness for C1: the classifier evaluated at the boundary scores. -/
theorem claim_c1_witness :
    assign_flag 66 = "Green" ∧ assign_flag 62 = "Yellow" ∧
      assign_flag (61999 / 1000) = "Red" :=
  ⟨claim_c1.2.1, claim_c1.2.2.1, claim_c1.2.2.2.1⟩

theorem cellAt_nil_left (row : List Cell) (c : String) : cellAt [] row c = .null := by
  cases row <;> rfl

theorem cellAt_nil_right (cols : List String) (c : String) : cellAt cols [] c = .null := by
  cases cols <;> rfl

theorem contains_true_iff {l : List String} {x : String} :
    l.contains x = true ↔ x ∈ l := List.elem_iff

theorem contains_false_iff {l : List String} {x : String} :
    l.contains x = false ↔ x ∉ l := by
  constructor
  · intro h hm
    rw [contains_true_iff.mpr hm] at h
    simp at h
  · intro hm
    cases h : l.contains x
    · rfl
    · exact absurd (contains_true_iff.mp h) hm

theorem cellAt_map_self {f : String → Cell} {t : List String} {c : String} (h : c ∈ t) :
    cellAt t (t.map f) c = f c := by
  induction t with
  | nil => cases h
  | cons a as ih =>
    by_cases hac : a = c
    · subst hac; simp [cellAt]
    · have hc : c ∈ as := by
        rcases List.mem_cons.mp h with h' | h'
        · exact absurd h'.symm hac
        · exact h'
      simp [cellAt, hac, ih hc]

theorem cellAt_append_skip {cols₁ cols₂ : List String} {row₁ row₂ : List Cell} {c : String}
    (hlen : row₁.length = cols₁.length) (hc : c ∉ cols₁) :
    cellAt (cols₁ ++ cols₂) (row₁ ++ row₂) c = cellAt cols₂ row₂ c := by
  induction cols₁ generalizing row₁ with
  | nil =>
    cases row₁ with
    | nil => simp
    | cons x xs => simp at hlen
  | cons a as ih =>
    cases row₁ with
    | nil => simp at hlen
    | cons x xs =>
      have ha : a ≠ c := fun h => hc (h ▸ List.mem_cons_self a as)
      simpa [cellAt, ha] using
        ih (by simpa using hlen) (fun h => hc (List.mem_cons_of_mem _ h))

theorem cellAt_setAt_self {cols : List String} {row : List Cell} {c : String} {v : Cell}
    (hlen : row.length = cols.length) (hc : c ∈ cols) :
    cellAt cols (setAt cols row c v) c = v := by
  induction cols generalizing row with
  | nil => cases hc
  | cons a as ih =>
    cases row with
    | nil => simp at hlen
    | cons x xs =>
      by_cases hac : a = c
      · simp [setAt, cellAt, hac]
      · have hcas : c ∈ as := by
          rcases List.mem_cons.mp hc with h' | h'
          · exact absurd h'.symm hac
          · exact h'
        simp [setAt, cellAt, hac, ih (by simpa using hlen) hcas]

theorem cellAt_setAt_ne {cols : List String} {row : List Cell} {c c' : String} {v : Cell}
    (h : c' ≠ c) : cellAt cols (setAt cols row c v) c' = cellAt cols row c' := by
  induction cols generalizing row with
  | nil => cases row <;> rfl
  | cons a as ih =>
    cases row with
    | nil => rfl
    | cons x xs =>
      by_cases hac : a = c
      · subst hac
        have hac' : a ≠ c' := fun hh => h hh.symm
        simp [setAt, cellAt, hac']
      · by_cases hac' : a = c'
        · subst hac'
          simp [setAt, cellAt, hac]
        · simp [setAt, cellAt, hac, hac', ih]

theorem length_setAt {cols : List String} {row : List Cell} {c : String} {v : Cell} :
    (setAt cols row c v).length = row.length := by
  induction cols generalizing row with
  | nil => cases row <;> rfl
  | cons a as ih =>
    cases row with
    | nil => rfl
    | cons x xs =>
      by_cases hac : a = c
      · simp [setAt, hac]
      · simp [setAt, hac, ih]

theorem cellAt_append_one_ne {cols : List String} {row : List Cell} {c c' : String} {v : Cell}
    (hlen : row.length = cols.length) (h : c' ≠ c) :
    cellAt (cols ++ [c]) (row ++ [v]) c' = cellAt cols row c' := by
  induction cols generalizing row with
  | nil =>
    cases row with
    | nil =>
      have hcc : c ≠ c' := fun hh => h hh.symm
      simp [cellAt, hcc]
    | cons x xs => simp at hlen
  | cons a as ih =>
    cases row with
    | nil => simp at hlen
    | cons x xs =>
      by_cases hac : a = c'
      · simp [cellAt, hac]
      · simp [cellAt, hac, ih (by simpa using hlen)]

theorem cellAt_not_mem {cols : List String} {row : List Cell} {c : String} (h : c ∉ cols) :
    cellAt cols row c = .null := by
  induction cols generalizing row with
  | nil => exact cellAt_nil_left row c
  | cons a as ih =>
    cases row with
    | nil => rfl
    | cons x xs =>
      have ha : a ≠ c := fun hh => h (hh ▸ List.mem_cons_self a as)
      simp [cellAt, ha, ih (fun hh => h (List.mem_cons_of_mem _ hh))]

/-- Appending a fresh null column changes no lookup. -/
theorem cellAt_append_null {cols : List String} {row : List Cell} {c' : String}
    (hlen : row.length = cols.length) (hc' : c' ∉ cols) (c : String) :
    cellAt (cols ++ [c']) (row ++ [Cell.null]) c = cellAt cols row c := by
  by_cases hcc : c = c'
  · subst hcc
    rw [cellAt_append_skip hlen hc', cellAt_not_mem hc']
    simp [cellAt]
  · exact cellAt_append_one_ne hlen hcc

theorem cellAt_map_rename (σ : String → String) {cols : List String} {row : List Cell}
    {c : String} (hfix : σ c = c) (hinj : ∀ c', σ c' = c → c' = c) :
    cellAt (cols.map σ) row c = cellAt cols row c := by
  induction cols generalizing row with
  | nil => cases row <;> rfl
  | cons a as ih =>
    cases row with
    | nil => rfl
    | cons x xs =>
      by_cases hac : a = c
      · subst hac; simp [cellAt, hfix]
      · have : σ a ≠ c := fun hh => hac (hinj a hh)
        simp [cellAt, hac, this, ih]

theorem maskFilter_nil (m : List Bool) : maskFilter m ([] : List α) = [] := by
  cases m with
  | nil => rfl
  | cons b bs => cases b <;> rfl

theorem maskFilter_nil_mask (l : List α) : maskFilter [] l = [] := by
  cases l <;> rfl

theorem cellAt_maskFilter_dup (cols : List String) (row : List Cell) (seen : List String)
    (c : String) (h : c ∉ seen) :
    cellAt (maskFilter (dupMask cols seen) cols) (maskFilter (dupMask cols seen) row) c =
      cellAt cols row c := by
  induction cols generalizing row seen with
  | nil =>
    simp [dupMask, maskFilter_nil_mask, cellAt_nil_left]
  | cons a as ih =>
    cases row with
    | nil =>
      rw [maskFilter_nil, cellAt_nil_right, cellAt_nil_right]
    | cons x xs =>
      by_cases hsa : a ∈ seen
      · have ha : seen.contains a = true := contains_true_iff.mpr hsa
        have hac : a ≠ c := fun hh => h (hh ▸ hsa)
        simp only [dupMask, ha, Bool.not_true, Bool.cond_true, maskFilter]
        rw [ih xs seen h]
        simp [cellAt, hac]
      · have ha : seen.contains a = false := contains_false_iff.mpr hsa
        simp only [dupMask, ha, Bool.not_false, Bool.cond_false, maskFilter]
        by_cases hac : a = c
        · subst hac
          simp [cellAt]
        · have h' : c ∉ a :: seen := by
            intro hm
            rcases List.mem_cons.mp hm with hh | hh
            · exact hac hh.symm
            · exact h hh
          simp [cellAt, hac, ih xs (a :: seen) h']

theorem maskFilter_length_eq {m : List Bool} {l₁ : List α} {l₂ : List β}
    (h : l₁.length = l₂.length) : (maskFilter m l₁).length = (maskFilter m l₂).length := by
  induction m generalizing l₁ l₂ with
  | nil =>
    cases l₁ <;> cases l₂ <;> simp [maskFilter]
  | cons b bs ih =>
    cases l₁ with
    | nil =>
      cases l₂ with
      | nil => simp [maskFilter]
      | cons y ys => simp at h
    | cons x xs =>
      cases l₂ with
      | nil => simp at h
      | cons y ys =>
        cases b with
        | true => simpa [maskFilter] using ih (by simpa using h)
        | false => simpa [maskFilter] using ih (by simpa using h)

theorem dupMask_eq_replicate (cols seen : List String) (hn : cols.Nodup)
    (hd : ∀ x ∈ cols, x ∉ seen) :
    dupMask cols seen = List.replicate cols.length true := by
  induction cols generalizing seen with
  | nil => rfl
  | cons a as ih =>
    have hsa : a ∉ seen := hd a (List.mem_cons_self a as)
    have ha : seen.contains a = false := contains_false_iff.mpr hsa
    have hd' : ∀ x ∈ as, x ∉ a :: seen := by
      intro x hx hm
      rcases List.mem_cons.mp hm with hh | hh
      · exact (List.nodup_cons.mp hn).1 (hh ▸ hx)
      · exact hd x (List.mem_cons_of_mem _ hx) hh
    simp [dupMask, ha, hsa, List.replicate_succ,
      ih (a :: seen) (List.nodup_cons.mp hn).2 hd']

theorem maskFilter_replicate_true (n : ℕ) (l : List α) :
    maskFilter (List.replicate n true) l = l.take n := by
  induction n generalizing l with
  | zero =>
    rw [List.replicate_zero, maskFilter_nil_mask, List.take_zero]
  | succ k ih =>
    cases l with
    | nil => simp [maskFilter_nil]
    | cons x xs => simp [List.replicate_succ, maskFilter, ih]

theorem dedupCols_eq_self {df : Df} (hn : df.cols.Nodup) (ha : df.Aligned) :
    dedupCols df = df := by
  obtain ⟨cols, rows⟩ := df
  simp only [dedupCols]
  rw [dupMask_eq_replicate cols [] hn (fun x _ => List.not_mem_nil x),
    maskFilter_replicate_true, List.take_length]
  congr 1
  have hrow : ∀ r ∈ rows, maskFilter (List.replicate cols.length true) r = r := by
    intro r hr
    rw [maskFilter_replicate_true, ← ha r hr, List.take_length]
  calc rows.map (fun r => maskFilter (List.replicate cols.length true) r)
      = rows.map id := List.map_congr_left hrow
    _ = rows := List.map_id rows

theorem dedupCols_aligned {df : Df} (ha : df.Aligned) : (dedupCols df).Aligned := by
  intro r hr
  obtain ⟨cols, rows⟩ := df
  simp only [dedupCols, List.mem_map] at hr
  obtain ⟨r₀, hr₀, rfl⟩ := hr
  exact maskFilter_length_eq (ha r₀ hr₀)

theorem dedupCols_flagInv {df : Df} (h : FlagInv df) : FlagInv (dedupCols df) := by
  intro r hr
  obtain ⟨cols, rows⟩ := df
  simp only [dedupCols, List.mem_map] at hr
  obtain ⟨r₀, hr₀, rfl⟩ := hr
  have hflag := cellAt_maskFilter_dup cols r₀ [] "flag" (List.not_mem_nil _)
  have hts := cellAt_maskFilter_dup cols r₀ [] "total_score" (List.not_mem_nil _)
  simpa only [dedupCols, hflag, hts] using h r₀ hr₀

theorem dedupCols_rows_length (df : Df) : (dedupCols df).rows.length = df.rows.length := by
  simp [dedupCols]

/-- Claim C3: the content-area name set of the unified long table is the
intersection of the two source column sets minus the exclusion list,
alphabetically sorted without duplicates, and the computation is
commutative in the two sources. -/
theorem claim_c3 (A B : List String) :
    sharedEpcCols A B = sharedEpcCols B A ∧
    (∀ x, x ∈ sharedEpcCols A B ↔ x ∈ A ∧ x ∈ B ∧ x ∉ epcExcludeCols A B) ∧
    List.Sorted (· ≤ ·) (sharedEpcCols A B) ∧
    (sharedEpcCols A B).Nodup := by
  have hexcl : ∀ X Y : List String, epcExcludeCols X Y = epcExcludeCols Y X := by
    intro X Y
    simp [epcExcludeCols, epcStaticCols, Bool.or_comm]
  have hint : ∀ (a b : List String) (x : String), x ∈ a.inter b ↔ x ∈ a ∧ x ∈ b := by
    intro a b x
    have hdef : a.inter b = a ∩ b := rfl
    rw [hdef, List.mem_inter_iff]
  have hmem : ∀ X Y x, x ∈ sharedEpcCols X Y ↔ x ∈ X ∧ x ∈ Y ∧ x ∉ epcExcludeCols X Y := by
    intro X Y x
    simp only [sharedEpcCols, List.mem_insertionSort, List.mem_dedup, hint,
      List.mem_filter, Bool.not_eq_true', contains_false_iff]
    tauto
  have hsorted : ∀ X Y : List String, List.Sorted (· ≤ ·) (sharedEpcCols X Y) := by
    intro X Y
    exact List.sorted_insertionSort _ _
  have hnodup : ∀ X Y : List String, (sharedEpcCols X Y).Nodup := by
    intro X Y
    simp only [sharedEpcCols]
    exact (List.perm_insertionSort _ _).nodup_iff.mpr (List.nodup_dedup _)
  refine ⟨?_, hmem A B, hsorted A B, hnodup A B⟩
  have hperm : List.Perm (sharedEpcCols A B) (sharedEpcCols B A) := by
    rw [List.perm_ext_iff_of_nodup (hnodup A B) (hnodup B A)]
    intro x
    rw [hmem A B, hmem B A, hexcl A B]
    tauto
  exact List.eq_of_perm_of_sorted hperm (hsorted A B) (hsorted B A)

/-- Witness for C3: the shared content-area names of two small column
sets, in both orders. -/
theorem claim_c3_witness :
    (∀ x, x ∈ sharedEpcCols ["student_id", "Biochemistry", "total_score", "Anatomy"]
        ["Anatomy", "Biochemistry", "flag"] ↔
      x ∈ ["student_id", "Biochemistry", "total_score", "Anatomy"] ∧
      x ∈ ["Anatomy", "Biochemistry", "flag"] ∧
      x ∉ epcExcludeCols ["student_id", "Biochemistry", "total_score", "Anatomy"]
        ["Anatomy", "Biochemistry", "flag"]) :=
  (claim_c3 ["student_id", "Biochemistry", "total_score", "Anatomy"]
    ["Anatomy", "Biochemistry", "flag"]).2.1

/-- Claim C7: the trend is Improving exactly when there is more than one
exam and the chronologically last total score strictly exceeds the
chronologically first; in every other case it is "Stable". -/
theorem claim_c7 (exams : List Exam) (f l : Exam) (hne : exams ≠ [])
    (hf : (sortByDate exams).head? = some f)
    (hl : (sortByDate exams).getLast? = some l) :
    (score_trend exams = "Improving" ↔
        1 < exams.length ∧ f.total_score < l.total_score) ∧
    (score_trend exams = "Stable" ↔
        ¬(1 < exams.length ∧ f.total_score < l.total_score)) := by
  have _hne := hne
  unfold score_trend
  rw [hf, hl]
  dsimp only
  split_ifs with h
  · exact ⟨⟨fun _ => h, fun _ => rfl⟩,
      ⟨fun hs => absurd hs (by decide), fun hn => absurd h hn⟩⟩
  · exact ⟨⟨fun hs => absurd hs (by decide), fun hh => absurd hh h⟩,
      ⟨fun _ => h, fun _ => rfl⟩⟩

/-- Witness for C7: a two-exam history with a rising score is Improving. -/
theorem claim_c7_witness : score_trend wTrendExams = "Improving" :=
  (claim_c7 wTrendExams ⟨"2024-01-10", 60⟩ ⟨"2024-06-01", 70⟩ (by decide)
    (by decide) (by decide)).1.mpr ⟨by decide, by decide⟩

/-- Claim C10: after save_reset_token the store holds exactly one row for
the given email (the fresh token), every stored row is strictly less than
one hour old, fresh rows of other emails survive, and nothing else is
present. -/
theorem claim_c10 (rows : List TokenRow) (email token : String) (now : ℚ) :
    (save_reset_token rows email token now).filter (fun r => r.email == email) =
      [⟨email, token, now⟩] ∧
    (∀ r ∈ save_reset_token rows email token now, now - r.timestamp < 3600) ∧
    (∀ r ∈ rows, r.email ≠ email → now - 3600 < r.timestamp →
      r ∈ save_reset_token rows email token now) ∧
    (∀ r ∈ save_reset_token rows email token now,
      r = ⟨email, token, now⟩ ∨ (r ∈ rows ∧ r.email ≠ email)) := by
  refine ⟨?_, ?_, ?_, ?_⟩
  · unfold save_reset_token
    simp only [List.filter_append]
    have h2 : (([⟨email, token, now⟩] : List TokenRow).filter
        (fun r => decide (now - 3600 < r.timestamp))).filter
          (fun r => r.email == email) = [⟨email, token, now⟩] := by
      have ht : now - 3600 < now := by linarith
      simp [List.filter_cons, ht]
    have h1 : (((rows.filter (fun r => r.email != email)).filter
        (fun r => decide (now - 3600 < r.timestamp))).filter
          (fun r => r.email == email)) = [] := by
      apply List.filter_eq_nil_iff.mpr
      intro r hr
      have hner := (List.mem_filter.mp (List.mem_filter.mp hr).1).2
      simp only [bne_iff_ne, ne_eq] at hner
      simp [hner]
    rw [h1, h2, List.nil_append]
  · intro r hr
    simp only [save_reset_token, List.mem_filter, decide_eq_true_eq] at hr
    linarith [hr.2]
  · intro r hr hne hfresh
    simp only [save_reset_token, List.mem_filter, List.mem_append, decide_eq_true_eq]
    exact ⟨Or.inl ⟨hr, bne_iff_ne.mpr hne⟩, hfresh⟩
  · intro r hr
    simp only [save_reset_token, List.mem_filter, List.mem_append, List.mem_singleton,
      decide_eq_true_eq] at hr
    rcases hr.1 with ⟨hm, hb⟩ | h
    · exact Or.inr ⟨hm, bne_iff_ne.mp hb⟩
    · exact Or.inl h

/-- Witness for C10: the fresh token of another user survives the save. -/
theorem claim_c10_witness :
    wTokB ∈ save_reset_token wTokens "a@x.com" "t3" 4500 :=
  (claim_c10 wTokens "a@x.com" "t3" 4500).2.2.1 wTokB (by decide) (by decide)
    (by norm_num [wTokB])

theorem withColumn_rows_length (df : Df) (c : String) (f : List String → List Cell → Cell) :
    (withColumn df c f).rows.length = df.rows.length := by
  unfold withColumn
  split_ifs <;> simp

theorem meltEpc_cols (df : Df) (i v : List String) :
    (meltEpc df i v).cols = i ++ ["EPC", "Score"] := rfl

theorem meltEpc_aligned (df : Df) (i v : List String) :
    ∀ r ∈ (meltEpc df i v).rows, r.length = (meltEpc df i v).cols.length := by
  intro r hr
  simp only [meltEpc, List.mem_flatMap, List.mem_map] at hr
  obtain ⟨vv, _, r₀, _, rfl⟩ := hr
  simp [meltRow, meltEpc]

theorem cellAt_meltRow_score {cols idVars : List String} {v : String} {r : List Cell}
    (h : "Score" ∉ idVars) :
    cellAt (idVars ++ ["EPC", "Score"]) (meltRow cols idVars v r) "Score" = cellAt cols r v := by
  rw [meltRow, cellAt_append_skip (by simp) h]
  have hES : ("EPC" : String) ≠ "Score" := by decide
  simp [cellAt, hES]

theorem toNumeric_num_or_null (c : Cell) :
    (∃ q : ℚ, Cell.toNumeric c = Cell.num q) ∨ Cell.toNumeric c = Cell.null := by
  cases c with
  | num q => exact Or.inl ⟨q, rfl⟩
  | null => exact Or.inr rfl
  | str s =>
    cases hp : parseRat s with
    | none => exact Or.inr (by simp [Cell.toNumeric, hp])
    | some q => exact Or.inl ⟨q, by simp [Cell.toNumeric, hp]⟩

/-- Claim C4 (amended): in the PDF renderer's EPC reshaping, melting
followed by numeric coercion keeps every row whose score is the number 0
(and every other numeric score) and drops exactly the rows whose score is
non-numeric or absent; the Individual Student Dashboard EPC section runs
the same melt-coerce-drop pipeline but then filters to strictly positive
scores, so a score of 0 is dropped there. -/
theorem claim_c4 (df : Df) :
    (∀ v ∈ pdfValueVars df, ∀ r ∈ df.rows, ∀ q : ℚ,
        Cell.toNumeric (cellAt df.cols r v) = Cell.num q →
        setAt (pdfIdVars ++ ["EPC", "Score"]) (meltRow df.cols pdfIdVars v r) "Score"
          (Cell.num q) ∈ (pdfEpcLong df).rows) ∧
    (∀ r ∈ (pdfEpcLong df).rows,
        ∃ q : ℚ, cellAt (pdfEpcLong df).cols r "Score" = Cell.num q) ∧
    (dashEpcLong df).rows = (dashEpcBase df).rows.filter (fun r =>
        match cellAt (dashEpcBase df).cols r "Score" with
        | Cell.num q => decide (0 < q)
        | _ => false) ∧
    (∀ r ∈ (dashEpcLong df).rows, cellAt (dashEpcBase df).cols r "Score" ≠ Cell.num 0) := by
  have hscore_mem : "Score" ∈ pdfIdVars ++ ["EPC", "Score"] := by decide
  have hscore_not : "Score" ∉ pdfIdVars := by decide
  refine ⟨?_, ?_, rfl, ?_⟩
  · intro v hv r hr q hq
    have hmm : meltRow df.cols pdfIdVars v r ∈ (meltEpc df pdfIdVars (pdfValueVars df)).rows := by
      simp only [meltEpc, List.mem_flatMap]
      exact ⟨v, hv, List.mem_map.mpr ⟨r, hr, rfl⟩⟩
    have hlen : (meltRow df.cols pdfIdVars v r).length =
        (pdfIdVars ++ ["EPC", "Score"]).length := by
      simp [meltRow]
    have hcell : cellAt (pdfIdVars ++ ["EPC", "Score"])
        (meltRow df.cols pdfIdVars v r) "Score" = cellAt df.cols r v :=
      cellAt_meltRow_score hscore_not
    simp only [pdfEpcLong, dropnaCol, List.mem_filter, mapCol, meltEpc_cols, List.mem_map]
    constructor
    · refine ⟨meltRow df.cols pdfIdVars v r, hmm, ?_⟩
      rw [hcell, hq]
    · rw [cellAt_setAt_self hlen hscore_mem]
      simp
  · intro r hr
    simp only [pdfEpcLong, dropnaCol, List.mem_filter, mapCol, meltEpc_cols,
      List.mem_map] at hr
    obtain ⟨⟨r₀, hr₀, rfl⟩, hpred⟩ := hr
    have hlen : r₀.length = (pdfIdVars ++ ["EPC", "Score"]).length := by
      simpa [meltEpc_cols] using meltEpc_aligned df pdfIdVars (pdfValueVars df) r₀ hr₀
    rw [cellAt_setAt_self hlen hscore_mem] at hpred
    simp only [pdfEpcLong, dropnaCol, mapCol, meltEpc_cols]
    rw [cellAt_setAt_self hlen hscore_mem]
    rcases toNumeric_num_or_null (cellAt (pdfIdVars ++ ["EPC", "Score"]) r₀
      "Score") with ⟨q, hqq⟩ | hnull
    · exact ⟨q, hqq⟩
    · rw [hnull] at hpred
      simp at hpred
  · intro r hr heq
    simp only [dashEpcLong, posScoreFilter, List.mem_filter] at hr
    have hp := hr.2
    rw [heq] at hp
    simp at hp

/-- Counterexample for C4 as stated: a wide table whose only content-area
score is exactly 0 survives melt-coerce-drop, yet the dashboard's long
table is empty because the Score > 0 filter removes the row. -/
theorem claim_c4_cex :
    (dashEpcBase wEpc).rows =
      [[Cell.str "S1", Cell.str "CBSE", Cell.str "2024-01-10",
        Cell.str "Biochemistry", Cell.num 0]] ∧
    (dashEpcLong wEpc).rows = [] := by
  constructor
  · decide
  · decide

/-- Witness for C4: the PDF pipeline keeps the zero-score row of the
sample frame. -/
theorem claim_c4_witness :
    setAt (pdfIdVars ++ ["EPC", "Score"])
      (meltRow wEpc.cols pdfIdVars "Biochemistry"
        [Cell.str "S1", Cell.str "CBSE", Cell.str "2024-01-10", Cell.num 0])
      "Score" (Cell.num 0) ∈ (pdfEpcLong wEpc).rows :=
  (claim_c4 wEpc).1 "Biochemistry" (by decide)
    [Cell.str "S1", Cell.str "CBSE", Cell.str "2024-01-10", Cell.num 0] (by decide)
    0 (by decide)

theorem clash_heads {a b : Char} {as bs t : List Char} (hab : a ≠ b)
    (ha : (a :: as).isPrefixOf t = true) : (b :: bs).isPrefixOf t = false := by
  cases t with
  | nil => simp [List.isPrefixOf] at ha
  | cons c cs =>
    simp only [List.isPrefixOf, Bool.and_eq_true, beq_iff_eq] at ha
    have hbc : (b == c) = false := by
      rw [beq_eq_false_iff_ne]
      intro hh
      rw [← ha.1] at hh
      exact hab hh.symm
    simp [List.isPrefixOf, hbc]

theorem matches_excl {l₁ l₂ s : String} {a b : Char} {as bs : List Char}
    (h₁ : l₁.data = a :: as) (h₂ : l₂.data = b :: bs) (hab : a ≠ b)
    (hm : matchesLabel l₁ s = true) : matchesLabel l₂ s = false := by
  unfold matchesLabel at hm ⊢
  rw [h₁] at hm
  rw [h₂]
  exact clash_heads hab hm

theorem label_data_d : "Diagnosis".data = 'D' :: "iagnosis".data := by decide

theorem label_data_f : "Foundation".data = 'F' :: "oundation".data := by decide

theorem label_data_g : "Gen Principle".data = 'G' :: "en Principle".data := by decide

/-- Claim C5: the derived category is exactly the (unique) label among
Diagnosis, Foundation and Gen Principle matching at the start of the
description after leading whitespace; unmatched rows get a null category;
annotation drops no row; the per-category aggregation is computed only
over rows with a numeric correct value and a non-null category, with
percent correct = 100 * sum / count. -/
theorem claim_c5 :
    (∀ s l, extractCategory s = some l ↔ l ∈ qlfLabels ∧ matchesLabel l s = true) ∧
    (∀ s, extractCategory s = none ↔ ∀ l ∈ qlfLabels, matchesLabel l s = false) ∧
    (∀ df : Df, (qlfStage df).rows.length = df.rows.length) ∧
    (∀ (df : Df) r, r ∈ (qlfClean df).rows →
      cellAt (qlfClean df).cols r "score_category" ≠ Cell.null ∧
      cellAt (qlfClean df).cols r "correct" ≠ Cell.null) ∧
    (∀ (df : Df) (cat : String), (categoryCount df cat : ℚ) ≠ 0 →
      pctCorrect df cat * (categoryCount df cat : ℚ) = 100 * categorySum df cat) := by
  have hDF : ∀ s, matchesLabel "Diagnosis" s = true → matchesLabel "Foundation" s = false :=
    fun s => matches_excl label_data_d label_data_f (by decide)
  have hDG : ∀ s, matchesLabel "Diagnosis" s = true → matchesLabel "Gen Principle" s = false :=
    fun s => matches_excl label_data_d label_data_g (by decide)
  have hFD : ∀ s, matchesLabel "Foundation" s = true → matchesLabel "Diagnosis" s = false :=
    fun s => matches_excl label_data_f label_data_d (by decide)
  have hFG : ∀ s, matchesLabel "Foundation" s = true → matchesLabel "Gen Principle" s = false :=
    fun s => matches_excl label_data_f label_data_g (by decide)
  have hGD : ∀ s, matchesLabel "Gen Principle" s = true → matchesLabel "Diagnosis" s = false :=
    fun s => matches_excl label_data_g label_data_d (by decide)
  have hGF : ∀ s, matchesLabel "Gen Principle" s = true → matchesLabel "Foundation" s = false :=
    fun s => matches_excl label_data_g label_data_f (by decide)
  refine ⟨?_, ?_, ?_, ?_, ?_⟩
  · intro s l
    unfold extractCategory
    split_ifs with h1 h2 h3
    · constructor
      · intro h
        injection h with h
        subst h
        exact ⟨by decide, h1⟩
      · rintro ⟨hl, hm⟩
        have hl3 : l = "Diagnosis" ∨ l = "Foundation" ∨ l = "Gen Principle" := by
          simpa [qlfLabels] using hl
        rcases hl3 with rfl | rfl | rfl
        · rfl
        · rw [hFD s hm] at h1; cases h1
        · rw [hGD s hm] at h1; cases h1
    · constructor
      · intro h
        injection h with h
        subst h
        exact ⟨by decide, h2⟩
      · rintro ⟨hl, hm⟩
        have hl3 : l = "Diagnosis" ∨ l = "Foundation" ∨ l = "Gen Principle" := by
          simpa [qlfLabels] using hl
        rcases hl3 with rfl | rfl | rfl
        · exact absurd hm (by simp [h1])
        · rfl
        · rw [hGF s hm] at h2; cases h2
    · constructor
      · intro h
        injection h with h
        subst h
        exact ⟨by decide, h3⟩
      · rintro ⟨hl, hm⟩
        have hl3 : l = "Diagnosis" ∨ l = "Foundation" ∨ l = "Gen Principle" := by
          simpa [qlfLabels] using hl
        rcases hl3 with rfl | rfl | rfl
        · exact absurd hm (by simp [h1])
        · exact absurd hm (by simp [h2])
        · rfl
    · constructor
      · intro h
        cases h
      · rintro ⟨hl, hm⟩
        have hl3 : l = "Diagnosis" ∨ l = "Foundation" ∨ l = "Gen Principle" := by
          simpa [qlfLabels] using hl
        rcases hl3 with rfl | rfl | rfl
        · exact absurd hm (by simp [h1])
        · exact absurd hm (by simp [h2])
        · exact absurd hm (by simp [h3])
  · intro s
    unfold extractCategory
    split_ifs with h1 h2 h3
    · constructor
      · intro h
        cases h
      · intro hall
        have hc := hall "Diagnosis" (by decide)
        rw [h1] at hc
        cases hc
    · constructor
      · intro h
        cases h
      · intro hall
        have hc := hall "Foundation" (by decide)
        rw [h2] at hc
        cases hc
    · constructor
      · intro h
        cases h
      · intro hall
        have hc := hall "Gen Principle" (by decide)
        rw [h3] at hc
        cases hc
    · constructor
      · intro _ l hl
        have hl3 : l = "Diagnosis" ∨ l = "Foundation" ∨ l = "Gen Principle" := by
          simpa [qlfLabels] using hl
        rcases hl3 with rfl | rfl | rfl
        · cases hc : matchesLabel "Diagnosis" s
          · rfl
          · exact absurd hc h1
        · cases hc : matchesLabel "Foundation" s
          · rfl
          · exact absurd hc h2
        · cases hc : matchesLabel "Gen Principle" s
          · rfl
          · exact absurd hc h3
      · intro _
        rfl
  · intro df
    simp [qlfStage, dedupCols_rows_length, withColumn_rows_length]
  · intro df r hr
    simp only [qlfClean, List.mem_filter] at hr
    have hp := hr.2
    simp only [Bool.and_eq_true, bne_iff_ne, ne_eq] at hp
    simp only [qlfClean]
    exact ⟨hp.2, hp.1⟩
  · intro df cat h
    unfold pctCorrect
    exact div_mul_cancel₀ _ h

/-- Witness for C5: the two scenario descriptions of the specification. -/
theorem claim_c5_witness :
    extractCategory "Diagnosis: cardiac arrhythmias" = some "Diagnosis" ∧
    extractCategory "Unrelated text" = none :=
  ⟨(claim_c5.1 "Diagnosis: cardiac arrhythmias" "Diagnosis").mpr ⟨by decide, by decide⟩,
   (claim_c5.2.1 "Unrelated text").mpr (by decide)⟩

theorem mem_missingFrom {t p : List String} {c : String} :
    c ∈ missingFrom t p ↔ c ∈ t ∧ c ∉ p := by
  simp [missingFrom, List.mem_filter, Bool.not_eq_true', contains_false_iff]

theorem missingFrom_nil_iff {t p : List String} :
    missingFrom t p = [] ↔ ∀ c ∈ t, c ∈ p := by
  simp [missingFrom, List.filter_eq_nil_iff, Bool.not_eq_true', contains_false_iff]

theorem selectCols_ok {df : Df} {t : List String} (h : missingFrom t df.cols = []) :
    selectCols df t = .ok ⟨t, df.rows.map (fun r => t.map (fun c => cellAt df.cols r c))⟩ := by
  simp [selectCols, h]

theorem selectCols_error {df : Df} {t : List String} (h : missingFrom t df.cols ≠ []) :
    selectCols df t = .error (.schemaMismatch (missingFrom t df.cols) df.cols) := by
  simp [selectCols, h]

theorem selectCols_ok_inv {df out : Df} {t : List String} (h : selectCols df t = .ok out) :
    out.cols = t ∧ out.rows = df.rows.map (fun r => t.map (fun c => cellAt df.cols r c)) := by
  unfold selectCols at h
  split_ifs at h with hm
  have := Except.ok.inj h
  rw [← this]
  exact ⟨rfl, rfl⟩

theorem selectCols_ok_aligned {df out : Df} {t : List String} (h : selectCols df t = .ok out) :
    out.Aligned := by
  obtain ⟨hcols, hrows⟩ := selectCols_ok_inv h
  intro r hr
  rw [hrows] at hr
  obtain ⟨r₀, _, rfl⟩ := List.mem_map.mp hr
  simp [hcols]

theorem selectCols_flagInv {df out : Df} {t : List String} (h : selectCols df t = .ok out)
    (hf : "flag" ∈ t) (hts : "total_score" ∈ t) (hinv : FlagInv df) : FlagInv out := by
  obtain ⟨hcols, hrows⟩ := selectCols_ok_inv h
  intro r hr
  rw [hrows] at hr
  obtain ⟨r₀, hr₀, rfl⟩ := List.mem_map.mp hr
  rw [hcols, cellAt_map_self hf, cellAt_map_self hts]
  exact hinv r₀ hr₀

theorem selectCols_rows_length {df out : Df} {t : List String}
    (h : selectCols df t = .ok out) : out.rows.length = df.rows.length := by
  obtain ⟨-, hrows⟩ := selectCols_ok_inv h
  simp [hrows]

theorem withColumn_aligned {df : Df} (c : String) (f : List String → List Cell → Cell)
    (ha : df.Aligned) : (withColumn df c f).Aligned := by
  intro r hr
  unfold withColumn at hr ⊢
  split_ifs at hr ⊢ with hc
  · obtain ⟨r₀, hr₀, rfl⟩ := List.mem_map.mp hr
    simp [length_setAt, ha r₀ hr₀]
  · obtain ⟨r₀, hr₀, rfl⟩ := List.mem_map.mp hr
    simp [ha r₀ hr₀]

theorem withColumn_flag_inv {df : Df} (ha : df.Aligned) :
    FlagInv (withColumn df "flag"
      (fun cols r => assignFlagCell (cellAt cols r "total_score"))) := by
  intro r hr
  have hts_ne : ("total_score" : String) ≠ "flag" := by decide
  unfold withColumn at hr ⊢
  by_cases hc : df.cols.contains "flag" = true
  · rw [if_pos hc] at hr ⊢
    obtain ⟨r₀, hr₀, rfl⟩ := List.mem_map.mp hr
    dsimp only
    rw [cellAt_setAt_self (ha r₀ hr₀) (contains_true_iff.mp hc),
      cellAt_setAt_ne hts_ne]
  · rw [if_neg hc] at hr ⊢
    obtain ⟨r₀, hr₀, rfl⟩ := List.mem_map.mp hr
    have hnm : "flag" ∉ df.cols := by
      intro hmem
      exact hc (contains_true_iff.mpr hmem)
    dsimp only
    rw [cellAt_append_skip (ha r₀ hr₀) hnm,
      cellAt_append_one_ne (ha r₀ hr₀) hts_ne]
    simp [cellAt]

theorem renameCol_aligned {df : Df} (old new : String) (ha : df.Aligned) :
    (renameCol df old new).Aligned := by
  intro r hr
  unfold renameCol at hr ⊢
  simpa using ha r hr

theorem renameCol_flagInv {df : Df} {old new : String}
    (h1 : old ≠ "flag") (h2 : new ≠ "flag")
    (h3 : old ≠ "total_score") (h4 : new ≠ "total_score")
    (hinv : FlagInv df) : FlagInv (renameCol df old new) := by
  intro r hr
  unfold renameCol at hr ⊢
  dsimp only at hr ⊢
  have hfix1 : (if "flag" = old then new else "flag") = "flag" :=
    if_neg (fun hh => h1 hh.symm)
  have hinj1 : ∀ c', (if c' = old then new else c') = "flag" → c' = "flag" := by
    intro c' hc'
    by_cases hco : c' = old
    · rw [if_pos hco] at hc'
      exact absurd hc' h2
    · rwa [if_neg hco] at hc'
  have hfix2 : (if "total_score" = old then new else "total_score") = "total_score" :=
    if_neg (fun hh => h3 hh.symm)
  have hinj2 : ∀ c', (if c' = old then new else c') = "total_score" → c' = "total_score" := by
    intro c' hc'
    by_cases hco : c' = old
    · rw [if_pos hco] at hc'
      exact absurd hc' h4
    · rwa [if_neg hco] at hc'
  rw [cellAt_map_rename (fun c => if c = old then new else c) hfix1 hinj1,
    cellAt_map_rename (fun c => if c = old then new else c) hfix2 hinj2]
  exact hinv r hr

theorem renameCol_mem {df : Df} {old new c : String} (hc : c ∈ df.cols) (hne : c ≠ old) :
    c ∈ (renameCol df old new).cols := by
  unfold renameCol
  dsimp only
  exact List.mem_map.mpr ⟨c, hc, if_neg hne⟩

/-- The single master lemma about addMissingNull: it preserves alignment
and row count, keeps and adds the expected columns, and every lookup in an
extended row agrees with the lookup in the original row (absent columns
read null on both sides). -/
theorem addMissingNull_master (L : List String) (df : Df) (ha : df.Aligned) :
    (addMissingNull df L).Aligned ∧
    (addMissingNull df L).rows.length = df.rows.length ∧
    (∀ c, c ∈ df.cols → c ∈ (addMissingNull df L).cols) ∧
    (∀ c, c ∈ L → c ∈ (addMissingNull df L).cols) ∧
    (∃ ext : List Cell → List Cell,
      (addMissingNull df L).rows = df.rows.map ext ∧
      ∀ r, r.length = df.cols.length →
        ∀ c, cellAt (addMissingNull df L).cols (ext r) c = cellAt df.cols r c) := by
  induction L generalizing df with
  | nil =>
    refine ⟨ha, rfl, fun c hc => hc, fun c hc => absurd hc (List.not_mem_nil c), ?_⟩
    exact ⟨id, (List.map_id df.rows).symm, fun r _ c => rfl⟩
  | cons c0 cs ih =>
    by_cases hc : df.cols.contains c0 = true
    · have heq : addMissingNull df (c0 :: cs) = addMissingNull df cs := by
        rw [addMissingNull]
        exact if_pos hc
      rw [heq]
      obtain ⟨A1, A2, A3, A4, ext, hext, hcell⟩ := ih df ha
      refine ⟨A1, A2, A3, ?_, ext, hext, hcell⟩
      intro c hcm
      rcases List.mem_cons.mp hcm with rfl | hcm
      · exact A3 c (contains_true_iff.mp hc)
      · exact A4 c hcm
    · have hnm : c0 ∉ df.cols := fun hmem => hc (contains_true_iff.mpr hmem)
      have heq : addMissingNull df (c0 :: cs) =
          addMissingNull ⟨df.cols ++ [c0], df.rows.map (fun r => r ++ [Cell.null])⟩ cs := by
        rw [addMissingNull]
        exact if_neg hc
      rw [heq]
      have ha' : (Df.mk (df.cols ++ [c0]) (df.rows.map (fun r => r ++ [Cell.null]))).Aligned := by
        intro r hr
        obtain ⟨r₀, hr₀, rfl⟩ := List.mem_map.mp hr
        simp [ha r₀ hr₀]
      obtain ⟨A1, A2, A3, A4, ext, hext, hcell⟩ :=
        ih ⟨df.cols ++ [c0], df.rows.map (fun r => r ++ [Cell.null])⟩ ha'
      refine ⟨A1, by rw [A2]; simp, ?_, ?_, ?_⟩
      · intro c hcm
        exact A3 c (by simp [hcm])
      · intro c hcm
        rcases List.mem_cons.mp hcm with rfl | hcm
        · exact A3 c (by simp)
        · exact A4 c hcm
      · refine ⟨fun r => ext (r ++ [Cell.null]), ?_, ?_⟩
        · rw [hext]
          simp [List.map_map, Function.comp]
        · intro r hlen c
          have h1 := hcell (r ++ [Cell.null]) (by simp [hlen]) c
          rw [h1]
          exact cellAt_append_null hlen hnm c

theorem addMissingNull_flagInv (L : List String) (df : Df) (ha : df.Aligned)
    (hinv : FlagInv df) : FlagInv (addMissingNull df L) := by
  obtain ⟨-, -, -, -, ext, hext, hcell⟩ := addMissingNull_master L df ha
  intro r hr
  rw [hext] at hr
  obtain ⟨r₀, hr₀, rfl⟩ := List.mem_map.mp hr
  rw [hcell r₀ (ha r₀ hr₀) "flag", hcell r₀ (ha r₀ hr₀) "total_score"]
  exact hinv r₀ hr₀

theorem tagStage_aligned {df : Df} (tag : String) (ha : df.Aligned) :
    (tagStage df tag).Aligned :=
  dedupCols_aligned (withColumn_aligned _ _ ha)

theorem flagStage_error {df : Df} {tag : String}
    (h : "total_score" ∉ (tagStage df tag).cols) :
    flagStage df tag = .error (.keyError "total_score") := by
  unfold flagStage
  rw [if_neg (fun hc => h (contains_true_iff.mp hc))]

theorem flagStage_ok {df : Df} {tag : String}
    (h : "total_score" ∈ (tagStage df tag).cols) :
    flagStage df tag = .ok (withColumn (tagStage df tag)
      "flag" (fun cols r => assignFlagCell (cellAt cols r "total_score"))) := by
  unfold flagStage
  rw [if_pos (contains_true_iff.mpr h)]

theorem flagStage_ok_spec {df out : Df} {tag : String} (h : flagStage df tag = .ok out)
    (ha : df.Aligned) : FlagInv out ∧ out.Aligned := by
  unfold flagStage at h
  split_ifs at h with hc
  obtain rfl := Except.ok.inj h
  exact ⟨withColumn_flag_inv (tagStage_aligned tag ha),
    withColumn_aligned _ _ (tagStage_aligned tag ha)⟩

theorem mem_cbseRequired_flag (df : Df) : "flag" ∈ cbseRequiredCols df := by
  unfold cbseRequiredCols
  exact List.mem_append.mpr (Or.inl (List.mem_append.mpr (Or.inl (by decide))))

theorem mem_cbseRequired_ts (df : Df) : "total_score" ∈ cbseRequiredCols df := by
  unfold cbseRequiredCols
  exact List.mem_append.mpr (Or.inl (List.mem_append.mpr (Or.inl (by decide))))

theorem mem_cbssaRequired_flag (cbse cbssa : Df) :
    "flag" ∈ cbssaRequiredCols cbse cbssa := by
  unfold cbssaRequiredCols
  split_ifs with h1 h2
  · exact List.mem_append.mpr (Or.inl (mem_cbseRequired_flag cbse))
  · exact List.mem_append.mpr
      (Or.inl (List.mem_filter.mpr ⟨mem_cbseRequired_flag cbse, by decide⟩))
  · exact mem_cbseRequired_flag cbse

theorem mem_cbssaRequired_ts (cbse cbssa : Df) :
    "total_score" ∈ cbssaRequiredCols cbse cbssa := by
  unfold cbssaRequiredCols
  split_ifs with h1 h2
  · exact List.mem_append.mpr (Or.inl (mem_cbseRequired_ts cbse))
  · exact List.mem_append.mpr
      (Or.inl (List.mem_filter.mpr ⟨mem_cbseRequired_ts cbse, by decide⟩))
  · exact mem_cbseRequired_ts cbse

theorem mem_finalCols_flag (a b : Df) : "flag" ∈ finalColsFor a b := by
  unfold finalColsFor
  exact List.mem_append.mpr (Or.inl (by decide))

theorem mem_finalCols_ts (a b : Df) : "total_score" ∈ finalColsFor a b := by
  unfold finalColsFor
  exact List.mem_append.mpr (Or.inl (by decide))

theorem finalColsFor_nodup (a b : Df) : (finalColsFor a b).Nodup := by
  unfold finalColsFor finalBaseCols
  split_ifs <;> decide

/-- finalizeConcat always succeeds, produces the canonical column set and
the summed row count, preserves the flag invariant of both sides, and the
columns created as null read null in the corresponding half. -/
theorem finalizeConcat_ok (a b : Df) (ha : a.Aligned) (hb : b.Aligned) :
    ∃ out, finalizeConcat a b = .ok out ∧
      out.cols = finalColsFor a b ∧
      out.rows.length = a.rows.length + b.rows.length ∧
      (FlagInv a → FlagInv b → FlagInv out) ∧
      (∀ c ∈ finalColsFor a b, c ∉ a.cols →
        ∀ r ∈ out.rows.take a.rows.length, cellAt out.cols r c = Cell.null) ∧
      (∀ c ∈ finalColsFor a b, c ∉ b.cols →
        ∀ r ∈ out.rows.drop a.rows.length, cellAt out.cols r c = Cell.null) := by
  obtain ⟨hA1, hA2, hA3, hA4, extA, hextA, hcellA⟩ :=
    addMissingNull_master (finalColsFor a b) a ha
  obtain ⟨hB1, hB2, hB3, hB4, extB, hextB, hcellB⟩ :=
    addMissingNull_master (finalColsFor a b) b hb
  have hmA : missingFrom (finalColsFor a b) (addMissingNull a (finalColsFor a b)).cols = [] :=
    missingFrom_nil_iff.mpr (fun c hc => hA4 c hc)
  have hmB : missingFrom (finalColsFor a b) (addMissingNull b (finalColsFor a b)).cols = [] :=
    missingFrom_nil_iff.mpr (fun c hc => hB4 c hc)
  obtain ⟨a2, hselA⟩ : ∃ a2,
      selectCols (addMissingNull a (finalColsFor a b)) (finalColsFor a b) = .ok a2 :=
    ⟨_, selectCols_ok hmA⟩
  obtain ⟨b2, hselB⟩ : ∃ b2,
      selectCols (addMissingNull b (finalColsFor a b)) (finalColsFor a b) = .ok b2 :=
    ⟨_, selectCols_ok hmB⟩
  have ha2al : a2.Aligned := selectCols_ok_aligned hselA
  have hb2al : b2.Aligned := selectCols_ok_aligned hselB
  have ha2cols : a2.cols = finalColsFor a b := (selectCols_ok_inv hselA).1
  have hb2cols : b2.cols = finalColsFor a b := (selectCols_ok_inv hselB).1
  have hda : dedupCols a2 = a2 :=
    dedupCols_eq_self (by rw [ha2cols]; exact finalColsFor_nodup a b) ha2al
  have hdb : dedupCols b2 = b2 :=
    dedupCols_eq_self (by rw [hb2cols]; exact finalColsFor_nodup a b) hb2al
  have hfc : finalizeConcat a b = .ok (concatSame a2 b2) := by
    unfold finalizeConcat
    rw [hselA]
    dsimp only
    rw [hselB]
    dsimp only
    rw [hda, hdb]
  have ha2len : a2.rows.length = a.rows.length := by
    rw [selectCols_rows_length hselA, hA2]
  have hb2len : b2.rows.length = b.rows.length := by
    rw [selectCols_rows_length hselB, hB2]
  have hconcat_rows : (concatSame a2 b2).rows = a2.rows ++ b2.rows := rfl
  have hconcat_cols : (concatSame a2 b2).cols = a2.cols := rfl
  have htake : (concatSame a2 b2).rows.take a.rows.length = a2.rows := by
    rw [hconcat_rows, ← ha2len, List.take_left]
  have hdrop : (concatSame a2 b2).rows.drop a.rows.length = b2.rows := by
    rw [hconcat_rows, ← ha2len, List.drop_left]
  refine ⟨concatSame a2 b2, hfc, by rw [hconcat_cols, ha2cols], ?_, ?_, ?_, ?_⟩
  · rw [hconcat_rows, List.length_append, ha2len, hb2len]
  · intro hfa hfb
    have hia : FlagInv a2 :=
      selectCols_flagInv hselA (mem_finalCols_flag a b) (mem_finalCols_ts a b)
        (addMissingNull_flagInv _ a ha hfa)
    have hib : FlagInv b2 :=
      selectCols_flagInv hselB (mem_finalCols_flag a b) (mem_finalCols_ts a b)
        (addMissingNull_flagInv _ b hb hfb)
    intro r hr
    rw [hconcat_rows] at hr
    rcases List.mem_append.mp hr with hr | hr
    · rw [hconcat_cols]
      exact hia r hr
    · rw [hconcat_cols, ha2cols, ← hb2cols]
      exact hib r hr
  · intro c hcf hcna r hr
    rw [htake] at hr
    rw [(selectCols_ok_inv hselA).2] at hr
    obtain ⟨r₀, hr₀, rfl⟩ := List.mem_map.mp hr
    rw [hconcat_cols, ha2cols, cellAt_map_self hcf]
    rw [hextA] at hr₀
    obtain ⟨r₁, hr₁, rfl⟩ := List.mem_map.mp hr₀
    rw [hcellA r₁ (ha r₁ hr₁) c]
    exact cellAt_not_mem hcna
  · intro c hcf hcnb r hr
    rw [hdrop] at hr
    rw [(selectCols_ok_inv hselB).2] at hr
    obtain ⟨r₀, hr₀, rfl⟩ := List.mem_map.mp hr
    rw [hconcat_cols, ha2cols, cellAt_map_self hcf]
    rw [hextB] at hr₀
    obtain ⟨r₁, hr₁, rfl⟩ := List.mem_map.mp hr₀
    rw [hcellB r₁ (hb r₁ hr₁) c]
    exact cellAt_not_mem hcnb

/-- Claim C9: two normalised per-format frames are brought to the
identical canonical column set (missing optional columns created as null),
and their concatenation has row count equal to the sum of the input row
counts with exactly the canonical columns — no column is lost. -/
theorem claim_c9 (a b : Df) (ha : a.Aligned) (hb : b.Aligned) :
    ∃ out, finalizeConcat a b = .ok out ∧
      out.rows.length = a.rows.length + b.rows.length ∧
      out.cols = finalColsFor a b ∧
      (∀ c ∈ finalColsFor a b, c ∉ a.cols →
        ∀ r ∈ out.rows.take a.rows.length, cellAt out.cols r c = Cell.null) ∧
      (∀ c ∈ finalColsFor a b, c ∉ b.cols →
        ∀ r ∈ out.rows.drop a.rows.length, cellAt out.cols r c = Cell.null) := by
  obtain ⟨out, h1, h2, h3, -, h5, h6⟩ := finalizeConcat_ok a b ha hb
  exact ⟨out, h1, h3, h2, h5, h6⟩

/-- Witness for C9 on two one-row frames, one holding only student_id and
the other only a band column. -/
theorem claim_c9_witness :
    ∃ out, finalizeConcat wNarrowA wNarrowB = .ok out ∧
      out.rows.length = wNarrowA.rows.length + wNarrowB.rows.length ∧
      out.cols = finalColsFor wNarrowA wNarrowB ∧
      (∀ c ∈ finalColsFor wNarrowA wNarrowB, c ∉ wNarrowA.cols →
        ∀ r ∈ out.rows.take wNarrowA.rows.length, cellAt out.cols r c = Cell.null) ∧
      (∀ c ∈ finalColsFor wNarrowA wNarrowB, c ∉ wNarrowB.cols →
        ∀ r ∈ out.rows.drop wNarrowA.rows.length, cellAt out.cols r c = Cell.null) :=
  claim_c9 wNarrowA wNarrowB (by decide) (by decide)

/-- Claim C2: in the concatenated exam_records table every row's flag is
the classifier applied to the row's own total_score — flags are attached
per source frame before concatenation, and no later step disturbs them. -/
theorem claim_c2 (cbse cbssa : Df) (out : Df) (ha : cbse.Aligned) (hb : cbssa.Aligned)
    (hok : examRecordsPipeline cbse cbssa = .ok out) :
    ∀ r ∈ out.rows, ∀ q : ℚ, cellAt out.cols r "total_score" = Cell.num q →
      cellAt out.cols r "flag" = Cell.str (assign_flag q) := by
  unfold examRecordsPipeline at hok
  cases hf1 : flagStage cbse "CBSE" with
  | error e =>
    rw [hf1] at hok
    simp at hok
  | ok cbse1 =>
    rw [hf1] at hok
    dsimp only at hok
    cases hf2 : flagStage cbssa "CBSSA" with
    | error e =>
      rw [hf2] at hok
      simp at hok
    | ok cbssa1 =>
      rw [hf2] at hok
      dsimp only at hok
      obtain ⟨hicbse1, -⟩ := flagStage_ok_spec hf1 ha
      obtain ⟨hicbssa1, -⟩ := flagStage_ok_spec hf2 hb
      cases hsel1 : selectCols cbse1 (cbseRequiredCols cbse1) with
      | error e =>
        rw [hsel1] at hok
        simp at hok
      | ok a1 =>
        rw [hsel1] at hok
        dsimp only at hok
        cases hsel2 : selectCols cbssa1 (cbssaRequiredCols cbse1 cbssa1) with
        | error e =>
          rw [hsel2] at hok
          simp at hok
        | ok b1 =>
          rw [hsel2] at hok
          dsimp only at hok
          have ha1 : a1.Aligned := selectCols_ok_aligned hsel1
          have hb1 : b1.Aligned := selectCols_ok_aligned hsel2
          have hia : FlagInv a1 :=
            selectCols_flagInv hsel1 (mem_cbseRequired_flag _) (mem_cbseRequired_ts _)
              hicbse1
          have hib : FlagInv b1 :=
            selectCols_flagInv hsel2 (mem_cbssaRequired_flag _ _) (mem_cbssaRequired_ts _ _)
              hicbssa1
          have hra := renameCol_aligned "cbse_band" "band" ha1
          have hrb := renameCol_aligned "cbssa_band" "band" hb1
          have hria : FlagInv (renameCol a1 "cbse_band" "band") :=
            renameCol_flagInv (by decide) (by decide) (by decide) (by decide) hia
          have hrib : FlagInv (renameCol b1 "cbssa_band" "band") :=
            renameCol_flagInv (by decide) (by decide) (by decide) (by decide) hib
          obtain ⟨out', hfc, -, -, hinv, -, -⟩ := finalizeConcat_ok _ _ hra hrb
          rw [hok] at hfc
          obtain rfl : out = out' := Except.ok.inj hfc
          have hOut := hinv hria hrib
          intro r hr q hq
          have hflag := hOut r hr
          rw [hq] at hflag
          exact hflag

/-- Witness for C2: the pipeline on the two sample frames, checked on the
first produced row. -/
theorem claim_c2_witness :
    examRecordsPipeline wCbse wCbssa = .ok wExamOut ∧
    cellAt wExamOut.cols wExamRow "flag" = Cell.str (assign_flag 70) := by
  have hok : examRecordsPipeline wCbse wCbssa = .ok wExamOut := by decide
  exact ⟨hok, claim_c2 wCbse wCbssa wExamOut (by decide) (by decide) hok wExamRow
    (by decide) 70 (by decide)⟩

/-- Counterexample for C8 as stated: a frame lacking total_score halts at
the flag-assignment step (line 964) with a bare KeyError naming only that
column — the schema report of lines 985-999, which would list the missing
columns together with the actually-present ones, is never reached. -/
theorem claim_c8_cex :
    examRecordsPipeline wBadCbse wCbssa = .error (LoadError.keyError "total_score") := by
  decide

/-- Claim C8 (amended): a source frame missing the required total_score
column halts the load at the flag assignment with a bare KeyError naming
only that column; a frame whose flag assignment succeeds but which is
missing any other required canonical column gets the schema-mismatch
error naming exactly the missing columns together with the
actually-present columns; in both cases processing halts for that load
cycle, and a table is produced only when nothing required is missing, so
an absent column is never silently coerced or filled. -/
theorem claim_c8 (cbse cbssa : Df) :
    ("total_score" ∉ (tagStage cbse "CBSE").cols →
      examRecordsPipeline cbse cbssa = .error (.keyError "total_score")) ∧
    (∀ cbse1, flagStage cbse "CBSE" = .ok cbse1 →
      ("total_score" ∉ (tagStage cbssa "CBSSA").cols →
        examRecordsPipeline cbse cbssa = .error (.keyError "total_score")) ∧
      (∀ cbssa1, flagStage cbssa "CBSSA" = .ok cbssa1 →
        (missingFrom (cbseRequiredCols cbse1) cbse1.cols ≠ [] →
          examRecordsPipeline cbse cbssa =
            .error (.schemaMismatch (missingFrom (cbseRequiredCols cbse1) cbse1.cols)
              cbse1.cols)) ∧
        (missingFrom (cbseRequiredCols cbse1) cbse1.cols = [] →
         missingFrom (cbssaRequiredCols cbse1 cbssa1) cbssa1.cols ≠ [] →
          examRecordsPipeline cbse cbssa =
            .error (.schemaMismatch
              (missingFrom (cbssaRequiredCols cbse1 cbssa1) cbssa1.cols)
              cbssa1.cols)))) ∧
    (∀ (c : String) (t p : List String), c ∈ missingFrom t p ↔ c ∈ t ∧ c ∉ p) ∧
    (∀ out, examRecordsPipeline cbse cbssa = .ok out →
      ∃ cbse1 cbssa1, flagStage cbse "CBSE" = .ok cbse1 ∧
        flagStage cbssa "CBSSA" = .ok cbssa1 ∧
        missingFrom (cbseRequiredCols cbse1) cbse1.cols = [] ∧
        missingFrom (cbssaRequiredCols cbse1 cbssa1) cbssa1.cols = []) := by
  refine ⟨?_, ?_, fun c t p => mem_missingFrom, ?_⟩
  · intro hm
    unfold examRecordsPipeline
    rw [flagStage_error hm]
  · intro cbse1 hf1
    constructor
    · intro hm
      unfold examRecordsPipeline
      rw [hf1]
      dsimp only
      rw [flagStage_error hm]
    · intro cbssa1 hf2
      constructor
      · intro hm1
        unfold examRecordsPipeline
        rw [hf1]
        dsimp only
        rw [hf2]
        dsimp only
        rw [selectCols_error hm1]
      · intro hm1 hm2
        unfold examRecordsPipeline
        rw [hf1]
        dsimp only
        rw [hf2]
        dsimp only
        rw [selectCols_ok hm1]
        dsimp only
        rw [selectCols_error hm2]
  · intro out hok
    unfold examRecordsPipeline at hok
    cases hf1 : flagStage cbse "CBSE" with
    | error e =>
      rw [hf1] at hok
      simp at hok
    | ok cbse1 =>
      rw [hf1] at hok
      dsimp only at hok
      cases hf2 : flagStage cbssa "CBSSA" with
      | error e =>
        rw [hf2] at hok
        simp at hok
      | ok cbssa1 =>
        rw [hf2] at hok
        dsimp only at hok
        by_cases hm1 : missingFrom (cbseRequiredCols cbse1) cbse1.cols = []
        · by_cases hm2 : missingFrom (cbssaRequiredCols cbse1 cbssa1) cbssa1.cols = []
          · exact ⟨cbse1, cbssa1, rfl, rfl, hm1, hm2⟩
          · rw [selectCols_ok hm1] at hok
            dsimp only at hok
            rw [selectCols_error hm2] at hok
            simp at hok
        · rw [selectCols_error hm1] at hok
          simp at hok

/-- Witness for C8: a CBSE frame that has total_score but lacks
student_id passes the flag stage and then halts with the schema report
naming the missing column together with the available columns. -/
theorem claim_c8_witness :
    examRecordsPipeline wSchemaCbse wCbssa =
      .error (.schemaMismatch ["student_id"]
        ["exam_date", "total_score", "step1_pass_prob", "exam_type", "flag"]) := by
  have h := (((claim_c8 wSchemaCbse wCbssa).2.1 wSchemaCbse1 (by decide)).2
    wCbssaFlagged (by decide)).1 (by decide)
  rw [h]
  have heq : LoadError.schemaMismatch
      (missingFrom (cbseRequiredCols wSchemaCbse1) wSchemaCbse1.cols) wSchemaCbse1.cols =
      LoadError.schemaMismatch ["student_id"]
        ["exam_date", "total_score", "step1_pass_prob", "exam_type", "flag"] := by
    decide
  rw [heq]

/-- Claim C6 fails on the code: line 374 of generate_student_pdf_report
assigns the coerced correct column back into the caller's student_qlf
table, so after the call the passed table differs whenever the correct
column held a non-numeric value — the renderer does mutate this input. -/
theorem claim_c6_code_eval :
    (rendererQlfAfter wQlfMut).rows =
      [[Cell.str "S1", Cell.null, Cell.str "Diagnosis"]] ∧
    rendererQlfAfter wQlfMut ≠ wQlfMut := by
  constructor
  · decide
  · decide

end MedDash
